import Mathlib

/-
Shallow embedding of the LocalEngine supervisor from app/backend/engine.py.
Mutable engine state becomes an explicit record threaded through the
operations; operating-system effects (process spawn, port allocation,
HTTP posts, filesystem queries) are supplied by an environment record,
so each operation is a pure function of state and environment.
-/

namespace LLMBox

/-- Membership-preserving insertion modelling Python set.add. -/
def setInsert (l : List String) (x : String) : List String :=
  if l.contains x then l else l ++ [x]

/-- Removal modelling Python set.discard. -/
def setErase (l : List String) (x : String) : List String :=
  l.filter (fun y => y != x)

/-- Key removal modelling Python dict.pop(k, None). -/
def mapErase {α : Type} (l : List (String × α)) (k : String) : List (String × α) :=
  l.filter (fun p => p.fst != k)

/-- Key insertion modelling Python dict assignment d[k] = v. -/
def mapInsert {α : Type} (l : List (String × α)) (k : String) (v : α) : List (String × α) :=
  mapErase l k ++ [(k, v)]

/-- Lookup modelling Python dict.get(k). -/
def mapLookup {α : Type} (l : List (String × α)) (k : String) : Option α :=
  List.lookup k l

/-- Catalog entry, mirroring the model dicts read by engine.py; absent JSON
keys are `none`. Only the keys the engine reads are modelled. -/
structure ModelSpec where
  runtime : Option String := none
  artifact : Option String := none
  server_path : Option String := none
  port : Option Nat := none
  base_url : Option String := none
  n_ctx : Option Nat := none
  n_gpu_layers : Option Nat := none
  server_args : List String := []
deriving DecidableEq

/-- One llama.cpp server record as stored in LocalEngine.llama_servers:
a process handle (modelled as a numeric id) and the loopback base URL. -/
structure RuntimeInstance where
  process : Nat
  base_url : String
deriving DecidableEq

/-- The mutable fields of LocalEngine (its __init__ assignments). -/
structure EngineState where
  loaded_models : List String := []
  loading_models : List String := []
  model_errors : List (String × String) := []
  model_catalog : List (String × ModelSpec) := []
  llama_servers : List (String × RuntimeInstance) := []
  repo_root : String := "/repo"
  allow_remote : Bool := false
deriving DecidableEq

/-- Each raise site of engine.py gets its own constructor; the payload of
the environment-originated constructors is the stringified OS exception. -/
inductive EngineError where
  | notLoaded
  | catalogNotInitialized
  | unknownModelId
  | artifactMissing
  | unsupportedRuntime (runtime : String)
  | serverNotRunning
  | remoteDisabled
  | portError (msg : String)
  | spawnError (msg : String)
  | requestFailed (msg : String)
deriving DecidableEq

/-- Rendering of an EngineError as Python str(e) of the raised exception. -/
def EngineError.toMessage : EngineError → String
  | EngineError.notLoaded => "Requested model is not loaded."
  | EngineError.catalogNotInitialized => "Model catalog is not initialized."
  | EngineError.unknownModelId => "Unknown model id"
  | EngineError.artifactMissing => "Model artifact is not configured."
  | EngineError.unsupportedRuntime r => "Unsupported runtime: " ++ r
  | EngineError.serverNotRunning => "Model server is not running."
  | EngineError.remoteDisabled => "Remote runtimes are disabled by default."
  | EngineError.portError m => m
  | EngineError.spawnError m => m
  | EngineError.requestFailed m => "Runtime request failed: " ++ m

/-- Parsed JSON body of a completion response; only the keys engine.py
reads are modelled, each choice reduced to its text field. -/
structure JsonResp where
  response : Option String := none
  content : Option String := none
  choices : List (Option String) := []
deriving DecidableEq

/-- Environment facts read by the binary resolver: the override variable
LLM_BOX_LLAMA_CPP_SERVER_PATH, os.name, platform.system().lower() and
platform.machine().lower(). -/
structure ResolveEnv where
  llama_cpp_server_path : Option String := none
  os_name_nt : Bool := false
  system : String := "linux"
  machine : String := "x86_64"

/-- Filesystem oracle: Path.exists and Path.glob outcomes. The glob field
takes the directory and the pattern and yields the matched paths. -/
structure FS where
  pathExists : String → Bool
  glob : String → String → List String

/-- Outcomes of the operating-system calls the engine makes: an ephemeral
port from the momentary socket bind, subprocess.Popen on an argument
vector, and one HTTP POST per URL. Error payloads are str(exception). -/
structure Env where
  renv : ResolveEnv
  fs : FS
  free_port : Except String Nat
  spawn : List String → Except String Nat
  post : String → Except String JsonResp

/-- Well-behaved environment: the operating system never stringifies a
socket or spawn failure to the empty string. -/
def Env.WF (env : Env) : Prop :=
  (∀ e, env.free_port = Except.error e → e ≠ "") ∧
  (∀ args e, env.spawn args = Except.error e → e ≠ "")

/-- Boolean test that the second list begins with the first. -/
def listStartsWith : List Char → List Char → Bool
  | [], _ => true
  | _ :: _, [] => false
  | p :: ps, c :: cs => p == c && listStartsWith ps cs

/-- Boolean test that the pattern occurs somewhere in the list. -/
def listHasOcc (pat : List Char) : List Char → Bool
  | [] => listStartsWith pat []
  | c :: cs => listStartsWith pat (c :: cs) || listHasOcc pat cs

/-- Opening reasoning marker of _strip_reasoning_tags. -/
def openTag : List Char := "<think>".data

/-- Closing reasoning marker of _strip_reasoning_tags. -/
def closeTag : List Char := "</think>".data

/-- Scan for the first occurrence of the closing marker and return the
characters after it; models the lazy extent of the regex match. -/
def splitAtClose : List Char → Option (List Char)
  | [] => none
  | c :: cs =>
    if listStartsWith closeTag (c :: cs) then some ((c :: cs).drop 8)
    else splitAtClose cs

/-- Left-to-right scan modelling re.sub of the non-greedy pattern
matching an open marker, a lazy body, and a close marker (DOTALL) with
the empty replacement. The fuel argument bounds the scan steps; any fuel
of at least the list length yields the full scan. -/
def stripAux : Nat → List Char → List Char
  | _, [] => []
  | 0, l => l
  | fuel + 1, c :: cs =>
    if listStartsWith openTag (c :: cs) then
      match splitAtClose ((c :: cs).drop 7) with
      | some rest => stripAux fuel rest
      | none => c :: cs
    else c :: stripAux fuel cs

/-- Whitespace recognised by Python str.strip restricted to ASCII. -/
def isSpaceChar (c : Char) : Bool :=
  c == ' ' || c == '\t' || c == '\n' || c == '\r' ||
  c == Char.ofNat 11 || c == Char.ofNat 12

/-- Drop leading whitespace characters. -/
def dropLeadingSpace : List Char → List Char
  | [] => []
  | c :: cs => if isSpaceChar c then dropLeadingSpace cs else c :: cs

/-- Model of Python str.strip(): trim whitespace at both ends. -/
def pyStrip (s : String) : String :=
  String.mk (dropLeadingSpace ((dropLeadingSpace s.data.reverse).reverse))

/-- LocalEngine._strip_reasoning_tags: delete every non-greedy
open-marker..close-marker span, then trim surrounding whitespace. -/
def strip_reasoning_tags (text : String) : String :=
  pyStrip (String.mk (stripAux text.data.length text.data))

/-- Characters before the first occurrence of the stop character. -/
def charsUpTo (stop : Char) : List Char → List Char
  | [] => []
  | c :: cs => if c == stop then [] else c :: charsUpTo stop cs

/-- Suffix after the scheme separator, if one occurs. -/
def afterSchemeMark : List Char → Option (List Char)
  | [] => none
  | c :: cs =>
    if listStartsWith ("://".data) (c :: cs) then some ((c :: cs).drop 3)
    else afterSchemeMark cs

/-- Characters after the last at-sign, the whole list when there is none. -/
def afterLastAt : List Char → List Char
  | [] => []
  | c :: cs =>
    if cs.contains ('@') then afterLastAt cs
    else if c == '@' then cs else c :: cs

/-- Modelled from the Python standard library: urlparse(url).hostname for
the scheme://host[:port]/path URL shapes this code passes it — the host
part of the authority, userinfo and port stripped, lowercased; none when
the URL has no authority or an empty host. -/
def urlHostname (url : String) : Option String :=
  match afterSchemeMark url.data with
  | none => none
  | some rest =>
    let netloc := charsUpTo ('/') rest
    let host := charsUpTo (':') (afterLastAt netloc)
    if host.isEmpty then none else some (String.mk (host.map Char.toLower))

/-- Modelled from the Python standard library: PurePosixPath.is_absolute,
true when the path begins with a slash. -/
def path_is_absolute (p : String) : Bool :=
  match p.data with
  | [] => false
  | c :: _ => c == ('/')

/-- Model of the pathlib slash operator joining two path segments. -/
def joinPath (a b : String) : String := a ++ "/" ++ b

/-- Insertion step of a stable ascending string sort. -/
def insertSorted (x : String) : List String → List String
  | [] => [x]
  | y :: ys =>
    match compare x y with
    | Ordering.gt => y :: insertSorted x ys
    | _ => x :: y :: ys

/-- Model of Python sorted() on path strings. -/
def sortStrings (l : List String) : List String := l.foldr insertSorted []

/-- Inner loop of the glob fallback: within one build directory, the
recursive search for the binary name, first match returned. -/
def firstDirMatch (fs : FS) (binary_name : String) : List String → Option String
  | [] => none
  | d :: ds =>
    match fs.glob d ("**/" ++ binary_name) with
    | m :: _ => some m
    | [] => firstDirMatch fs binary_name ds

/-- Outer loop of the glob fallback: try each platform pattern in order
over the sorted matching build directories. -/
def firstBuildMatch (fs : FS) (base_dir binary_name : String) :
    List String → Option String
  | [] => none
  | pattern :: rest =>
    match firstDirMatch fs binary_name (sortStrings (fs.glob base_dir pattern)) with
    | some sel => some sel
    | none => firstBuildMatch fs base_dir binary_name rest

/-- LocalEngine._resolve_llama_server: environment override, then the
model config path, then the flat layout, then the platform-keyed glob
patterns, then an unscoped recursive scan, finally the flat default. -/
def resolve_llama_server (renv : ResolveEnv) (fs : FS) (root : String)
    (model : ModelSpec) : String :=
  if renv.llama_cpp_server_path.getD "" != "" then
    renv.llama_cpp_server_path.getD ""
  else if model.server_path.getD "" != "" then
    let config_path := model.server_path.getD ""
    if path_is_absolute config_path then config_path
    else joinPath root config_path
  else
    let base_dir := root ++ "/app/backend/runtimes/llama.cpp"
    let binary_name := if renv.os_name_nt then "llama-server.exe" else "llama-server"
    if fs.pathExists (joinPath base_dir binary_name) then
      joinPath base_dir binary_name
    else
      let is_arm := renv.machine == "arm64" || renv.machine == "aarch64"
      let pattern_order :=
        if renv.system == "windows" then ["*-bin-win-cpu-x64"]
        else if renv.system == "darwin" then
          (if is_arm then ["*-bin-macos-arm64", "*-bin-macos-x64"]
           else ["*-bin-macos-x64", "*-bin-macos-arm64"])
        else if renv.system == "linux" then ["*-bin-ubuntu-x64"]
        else []
      match firstBuildMatch fs base_dir binary_name pattern_order with
      | some sel => sel
      | none =>
        match fs.glob base_dir ("**/" ++ binary_name) with
        | m :: _ => m
        | [] => joinPath base_dir binary_name

/-- LocalEngine._resolve_model_path: require the artifact field, resolve
a relative path against the repository root. -/
def resolve_model_path (root : String) (model : ModelSpec) :
    Except EngineError String :=
  if model.artifact.getD "" = "" then Except.error EngineError.artifactMissing
  else
    let artifact := model.artifact.getD ""
    Except.ok (if path_is_absolute artifact then artifact else joinPath root artifact)

/-- LocalEngine._get_model: fail when the catalog is empty, then look the
id up, failing when it is absent. -/
def get_model (st : EngineState) (model_id : String) : Except EngineError ModelSpec :=
  if st.model_catalog.isEmpty then Except.error EngineError.catalogNotInitialized
  else
    match mapLookup st.model_catalog model_id with
    | none => Except.error EngineError.unknownModelId
    | some model => Except.ok model

/-- LocalEngine.get_model_status: loading, then loaded, then error, then
available. -/
def get_model_status (st : EngineState) (model_id : String) : String :=
  if st.loading_models.contains model_id then "loading"
  else if st.loaded_models.contains model_id then "loaded"
  else if (mapLookup st.model_errors model_id).isSome then "error"
  else "available"

/-- LocalEngine.get_model_error: the recorded load failure message. -/
def get_model_error (st : EngineState) (model_id : String) : Option String :=
  mapLookup st.model_errors model_id

/-- Launch argument vector built by _ensure_llama_server. -/
def build_server_args (server_path model_path : String) (port : Nat)
    (model : ModelSpec) : List String :=
  [server_path, "--model", model_path, "--host", "127.0.0.1", "--port", toString port]
    ++ (match model.n_ctx with
        | some n => ["--ctx-size", toString n]
        | none => [])
    ++ (match model.n_gpu_layers with
        | some n => ["--n-gpu-layers", toString n]
        | none => [])
    ++ model.server_args

/-- Port selection of _ensure_llama_server: the configured port when it
is nonzero, otherwise the momentary-bind ephemeral port. -/
def pick_port (env : Env) (model : ModelSpec) : Except EngineError Nat :=
  if model.port.getD 0 != 0 then Except.ok (model.port.getD 0)
  else
    match env.free_port with
    | Except.ok p => Except.ok p
    | Except.error m => Except.error (EngineError.portError m)

/-- LocalEngine._ensure_llama_server: no-op when an instance exists;
otherwise resolve the binary and the artifact, pick the port, spawn the
process, and only then register the RuntimeInstance. -/
def ensure_llama_server (env : Env) (st : EngineState) (model_id : String)
    (model : ModelSpec) : Except EngineError Unit × EngineState :=
  if (mapLookup st.llama_servers model_id).isSome then (Except.ok (), st)
  else
    match resolve_model_path st.repo_root model with
    | Except.error e => (Except.error e, st)
    | Except.ok model_path =>
      match pick_port env model with
      | Except.error e => (Except.error e, st)
      | Except.ok port =>
        match env.spawn (build_server_args
            (resolve_llama_server env.renv env.fs st.repo_root model)
            model_path port model) with
        | Except.error m => (Except.error (EngineError.spawnError m), st)
        | Except.ok pid =>
          let inst : RuntimeInstance :=
            { process := pid, base_url := "http://127.0.0.1:" ++ toString port }
          (Except.ok (),
           { st with llama_servers := mapInsert st.llama_servers model_id inst })

/-- Body of the try block of LocalEngine.load_model. -/
def load_model_body (env : Env) (st : EngineState) (model_id : String) :
    Except EngineError Unit × EngineState :=
  match get_model st model_id with
  | Except.error e => (Except.error e, st)
  | Except.ok model =>
    if model.runtime.getD "ollama" = "llamacpp" then
      match ensure_llama_server env st model_id model with
      | (Except.error e, st2) => (Except.error e, st2)
      | (Except.ok _, st2) =>
        (Except.ok (), { st2 with loaded_models := setInsert st2.loaded_models model_id })
    else
      (Except.ok (), { st with loaded_models := setInsert st.loaded_models model_id })

/-- Entry mutations of LocalEngine.load_model: add the loading marker
and pop any previous error for the id. -/
def load_entry (st : EngineState) (model_id : String) : EngineState :=
  { st with
    loading_models := setInsert st.loading_models model_id,
    model_errors := mapErase st.model_errors model_id }

/-- LocalEngine.load_model: mark loading and clear the old error on
entry, run the body, record the failure message in the except branch,
and discard the loading marker in the finally branch. -/
def load_model (env : Env) (st : EngineState) (model_id : String) :
    Except EngineError Unit × EngineState :=
  match load_model_body env (load_entry st model_id) model_id with
  | (Except.ok _, st2) =>
    (Except.ok (), { st2 with loading_models := setErase st2.loading_models model_id })
  | (Except.error e, st2) =>
    (Except.error e,
     { st2 with
        model_errors := mapInsert st2.model_errors model_id (EngineError.toMessage e),
        loading_models := setErase st2.loading_models model_id })

/-- LocalEngine.unload_model: drop the id from the loaded set and pop its
server record, terminating the popped process (an external effect). -/
def unload_model (st : EngineState) (model_id : String) : EngineState :=
  { st with
      loaded_models := setErase st.loaded_models model_id,
      llama_servers := mapErase st.llama_servers model_id }

/-- LocalEngine._assert_local_url: pass everything when allow_remote is
set; otherwise require a loopback hostname. -/
def assert_local_url (st : EngineState) (url : String) : Except EngineError Unit :=
  if st.allow_remote then Except.ok ()
  else if urlHostname url = some "127.0.0.1" || urlHostname url = some "localhost" then
    Except.ok ()
  else Except.error EngineError.remoteDisabled

/-- LocalEngine._ollama_completion: check the local-url policy, post to
the generate endpoint, and return the stripped response field. -/
def ollama_completion (env : Env) (st : EngineState) (model : ModelSpec)
    (_message : String) : Except EngineError String :=
  let base_url := model.base_url.getD "http://127.0.0.1:11434"
  match assert_local_url st base_url with
  | Except.error e => Except.error e
  | Except.ok _ =>
    match env.post (base_url ++ "/api/generate") with
    | Except.error m => Except.error (EngineError.requestFailed m)
    | Except.ok r => Except.ok (pyStrip (r.response.getD ""))

/-- LocalEngine._llama_completion: require a running server record, post
to its completion endpoint, read content or the first choice, and strip
reasoning markup from the stripped text. -/
def llama_completion (env : Env) (st : EngineState) (model_id : String)
    (_message : String) : Except EngineError String :=
  match mapLookup st.llama_servers model_id with
  | none => Except.error EngineError.serverNotRunning
  | some server =>
    match env.post (server.base_url ++ "/completion") with
    | Except.error m => Except.error (EngineError.requestFailed m)
    | Except.ok r =>
      match r.content with
      | some c => Except.ok (strip_reasoning_tags (pyStrip c))
      | none =>
        match r.choices with
        | ch :: _ => Except.ok (strip_reasoning_tags (pyStrip (ch.getD "")))
        | [] => Except.ok ""

/-- LocalEngine.reply: reject an id outside a non-empty loaded set,
resolve the spec, then dispatch on the runtime tag — ensuring the
llama.cpp server lazily — and fail on an unknown runtime. -/
def reply (env : Env) (st : EngineState) (model_id message : String) :
    Except EngineError String × EngineState :=
  if !st.loaded_models.contains model_id && !st.loaded_models.isEmpty then
    (Except.error EngineError.notLoaded, st)
  else
    match get_model st model_id with
    | Except.error e => (Except.error e, st)
    | Except.ok model =>
      if model.runtime.getD "ollama" = "llamacpp" then
        match ensure_llama_server env st model_id model with
        | (Except.error e, st2) => (Except.error e, st2)
        | (Except.ok _, st2) => (llama_completion env st2 model_id message, st2)
      else if model.runtime.getD "ollama" = "ollama" then
        (ollama_completion env st model message, st)
      else
        (Except.error (EngineError.unsupportedRuntime (model.runtime.getD "ollama")), st)

/-- LocalEngine.set_model_catalog: rebuild the id-keyed catalog map. -/
def set_model_catalog (st : EngineState) (models : List (String × ModelSpec)) :
    EngineState :=
  { st with model_catalog := models.foldl (fun acc p => mapInsert acc p.fst p.snd) [] }

/-- LocalEngine.sync_loaded: replace the loaded set wholesale. -/
def sync_loaded (st : EngineState) (model_ids : List String) : EngineState :=
  { st with loaded_models := model_ids.eraseDups }

/-- Filesystem with no llama.cpp assets, used for concrete evaluations. -/
def sampleFS : FS := { pathExists := fun _ => false, glob := fun _ _ => [] }

/-- Environment in which every operating-system call succeeds and every
completion request returns the body with content field "hi". -/
def sampleEnv : Env :=
  { renv := {}, fs := sampleFS, free_port := Except.ok 4321,
    spawn := fun _ => Except.ok 77,
    post := fun _ => Except.ok { content := some "hi" } }

/-- Environment whose spawn and bind calls fail with a fixed message. -/
def failEnv : Env :=
  { renv := {}, fs := sampleFS, free_port := Except.error "bind failed",
    spawn := fun _ => Except.error "spawn failed",
    post := fun _ => Except.error "connection refused" }

/-- Catalog entry for a managed llama.cpp model with a valid artifact. -/
def sampleLlamaSpec : ModelSpec :=
  { runtime := some "llamacpp", artifact := some "models/m.gguf" }

/-- Catalog entry for a daemon-runtime model. -/
def sampleOllamaSpec : ModelSpec :=
  { runtime := some "ollama", artifact := some "llama3" }

/-- Catalog entry for a managed model missing its artifact field. -/
def brokenLlamaSpec : ModelSpec := { runtime := some "llamacpp" }

/-- Fresh engine whose catalog holds the one managed model m1. -/
def sampleState : EngineState := { model_catalog := [("m1", sampleLlamaSpec)] }

/-- Engine believing m1 is loaded while its catalog entry lost the
artifact field, as after sync_loaded from a stale state file. -/
def staleState : EngineState :=
  { model_catalog := [("m1", brokenLlamaSpec)], loaded_models := ["m1"] }

/-- Engine with the daemon model m1 loaded. -/
def loadedOllamaState : EngineState :=
  { model_catalog := [("m1", sampleOllamaSpec)], loaded_models := ["m1"] }

/-- Fresh engine whose only catalog entry is the broken managed model. -/
def freshBrokenState : EngineState := { model_catalog := [("m1", brokenLlamaSpec)] }

/-- Engine holding only a recorded load error for m1. -/
def erroredState : EngineState := { model_errors := [("m1", "boom")] }

deriving instance DecidableEq for Except

theorem setInsert_contains_self (l : List String) (x : String) :
    (setInsert l x).contains x = true := by
  unfold setInsert
  split
  · assumption
  · simp

theorem setErase_contains_self (l : List String) (x : String) :
    (setErase l x).contains x = false := by
  simp [setErase]

theorem mapErase_lookup_self {α : Type} (l : List (String × α)) (k : String) :
    mapLookup (mapErase l k) k = none := by
  induction l with
  | nil => rfl
  | cons p ps ih =>
    unfold mapErase mapLookup at ih ⊢
    by_cases h : p.fst = k
    · have h1 : (p.fst != k) = false := by simp [h]
      simpa [List.filter_cons, h1] using ih
    · have h1 : (p.fst != k) = true := bne_iff_ne.mpr h
      have h2 : (k == p.fst) = false := beq_eq_false_iff_ne.mpr (Ne.symm h)
      simpa [List.filter_cons, h1, List.lookup, h2] using ih

theorem lookup_append_of_none {α : Type} (l1 l2 : List (String × α)) (k : String)
    (h : List.lookup k l1 = none) :
    List.lookup k (l1 ++ l2) = List.lookup k l2 := by
  induction l1 with
  | nil => rfl
  | cons p ps ih =>
    cases hb : (k == p.fst) with
    | true => simp [List.lookup, hb] at h
    | false =>
      simp only [List.lookup, hb] at h
      simp only [List.cons_append, List.lookup, hb]
      exact ih h

theorem mapInsert_lookup_self {α : Type} (l : List (String × α)) (k : String) (v : α) :
    mapLookup (mapInsert l k v) k = some v := by
  unfold mapInsert mapLookup
  rw [lookup_append_of_none]
  · simp [List.lookup]
  · exact mapErase_lookup_self l k

theorem ensure_frame_fields (env : Env) (st : EngineState) (model_id : String)
    (model : ModelSpec) :
    (ensure_llama_server env st model_id model).2.loaded_models = st.loaded_models ∧
    (ensure_llama_server env st model_id model).2.loading_models = st.loading_models ∧
    (ensure_llama_server env st model_id model).2.model_errors = st.model_errors ∧
    (ensure_llama_server env st model_id model).2.model_catalog = st.model_catalog ∧
    (ensure_llama_server env st model_id model).2.repo_root = st.repo_root ∧
    (ensure_llama_server env st model_id model).2.allow_remote = st.allow_remote := by
  unfold ensure_llama_server
  split
  · simp
  · split
    · simp
    · split
      · simp
      · split
        · simp
        · simp

theorem ensure_error_state (env : Env) (st : EngineState) (model_id : String)
    (model : ModelSpec) (e : EngineError)
    (h : (ensure_llama_server env st model_id model).1 = Except.error e) :
    (ensure_llama_server env st model_id model).2 = st ∧
    mapLookup st.llama_servers model_id = none := by
  unfold ensure_llama_server at h ⊢
  split at h
  · simp at h
  · next hns =>
    have hnone : mapLookup st.llama_servers model_id = none := by
      simpa [Option.not_isSome_iff_eq_none] using hns
    split at h
    · simp [hnone]
    · split at h
      · simp [hnone]
      · split at h
        · simp [hnone]
        · simp at h

theorem ensure_servers_shape (env : Env) (st : EngineState) (model_id : String)
    (model : ModelSpec) :
    (ensure_llama_server env st model_id model).2.llama_servers = st.llama_servers ∨
    ∃ inst, (ensure_llama_server env st model_id model).2.llama_servers =
      mapInsert st.llama_servers model_id inst := by
  unfold ensure_llama_server
  split
  · exact Or.inl rfl
  · split
    · exact Or.inl rfl
    · split
      · exact Or.inl rfl
      · split
        · exact Or.inl rfl
        · exact Or.inr ⟨_, rfl⟩

theorem get_model_error_cases (st : EngineState) (model_id : String) (e : EngineError)
    (h : get_model st model_id = Except.error e) :
    e = EngineError.catalogNotInitialized ∨ e = EngineError.unknownModelId := by
  unfold get_model at h
  split at h
  · simp at h
    exact Or.inl h.symm
  · split at h
    · simp at h
      exact Or.inr h.symm
    · simp at h

theorem pick_port_error_cases (env : Env) (model : ModelSpec) (e : EngineError)
    (h : pick_port env model = Except.error e) :
    ∃ m, e = EngineError.portError m ∧ env.free_port = Except.error m := by
  unfold pick_port at h
  split at h
  · simp at h
  · split at h
    · simp at h
    · next m hm =>
      simp at h
      exact ⟨m, h.symm, hm⟩

theorem ensure_error_cases (env : Env) (st : EngineState) (model_id : String)
    (model : ModelSpec) (e : EngineError)
    (h : (ensure_llama_server env st model_id model).1 = Except.error e) :
    e = EngineError.artifactMissing ∨
    (∃ m, e = EngineError.portError m ∧ env.free_port = Except.error m) ∨
    (∃ m args, e = EngineError.spawnError m ∧ env.spawn args = Except.error m) := by
  unfold ensure_llama_server at h
  split at h
  · simp at h
  · split at h
    · next e0 he0 =>
      simp at h
      unfold resolve_model_path at he0
      split at he0
      · simp at he0
        exact Or.inl (h.symm.trans he0.symm)
      · simp at he0
    · split at h
      · next e0 he0 =>
        simp at h
        exact Or.inr (Or.inl (h ▸ pick_port_error_cases env model e0 he0))
      · split at h
        · next m hm =>
          simp at h
          exact Or.inr (Or.inr ⟨m, _, h.symm, hm⟩)
        · simp at h

theorem load_body_error_state (env : Env) (st : EngineState) (model_id : String)
    (e : EngineError)
    (h : (load_model_body env st model_id).1 = Except.error e) :
    (load_model_body env st model_id).2 = st := by
  unfold load_model_body at h ⊢
  cases hm : get_model st model_id with
  | error e0 => rfl
  | ok model =>
    rw [hm] at h
    dsimp only at h ⊢
    by_cases hr : model.runtime.getD "ollama" = "llamacpp"
    · rw [if_pos hr] at h ⊢
      cases hens : ensure_llama_server env st model_id model with
      | mk r st2 =>
        rw [hens] at h
        cases r with
        | error e2 =>
          have hst : (ensure_llama_server env st model_id model).2 = st :=
            (ensure_error_state env st model_id model e2 (by rw [hens])).1
          rw [hens] at hst
          exact hst
        | ok u => simp at h
    · rw [if_neg hr] at h ⊢
      simp at h

theorem load_body_ok_state (env : Env) (st : EngineState) (model_id : String)
    (h : (load_model_body env st model_id).1 = Except.ok ()) :
    (load_model_body env st model_id).2.loaded_models.contains model_id = true ∧
    (load_model_body env st model_id).2.loading_models = st.loading_models ∧
    (load_model_body env st model_id).2.model_errors = st.model_errors := by
  unfold load_model_body at h ⊢
  cases hm : get_model st model_id with
  | error e0 =>
    rw [hm] at h
    simp at h
  | ok model =>
    rw [hm] at h
    dsimp only at h ⊢
    by_cases hr : model.runtime.getD "ollama" = "llamacpp"
    · rw [if_pos hr] at h ⊢
      cases hens : ensure_llama_server env st model_id model with
      | mk r st2 =>
        rw [hens] at h
        cases r with
        | error e2 => simp at h
        | ok u =>
          have hf := ensure_frame_fields env st model_id model
          rw [hens] at hf
          exact ⟨setInsert_contains_self _ _, hf.2.1, hf.2.2.1⟩
    · rw [if_neg hr] at h ⊢
      exact ⟨setInsert_contains_self _ _, rfl, rfl⟩

theorem load_body_error_cases (env : Env) (st : EngineState) (model_id : String)
    (e : EngineError)
    (h : (load_model_body env st model_id).1 = Except.error e) :
    e = EngineError.catalogNotInitialized ∨ e = EngineError.unknownModelId ∨
    e = EngineError.artifactMissing ∨
    (∃ m, e = EngineError.portError m ∧ env.free_port = Except.error m) ∨
    (∃ m args, e = EngineError.spawnError m ∧ env.spawn args = Except.error m) := by
  unfold load_model_body at h
  cases hm : get_model st model_id with
  | error e0 =>
    rw [hm] at h
    simp at h
    rcases get_model_error_cases st model_id e0 hm with h1 | h1
    · exact Or.inl (h ▸ h1 ▸ rfl)
    · exact Or.inr (Or.inl (h ▸ h1 ▸ rfl))
  | ok model =>
    rw [hm] at h
    dsimp only at h
    by_cases hr : model.runtime.getD "ollama" = "llamacpp"
    · rw [if_pos hr] at h
      cases hens : ensure_llama_server env st model_id model with
      | mk r st2 =>
        rw [hens] at h
        cases r with
        | error e2 =>
          simp at h
          have he2 : (ensure_llama_server env st model_id model).1 = Except.error e2 := by
            rw [hens]
          rcases ensure_error_cases env st model_id model e2 he2 with h1 | h1 | h1
          · exact Or.inr (Or.inr (Or.inl (h ▸ h1 ▸ rfl)))
          · exact Or.inr (Or.inr (Or.inr (Or.inl (h ▸ h1))))
          · exact Or.inr (Or.inr (Or.inr (Or.inr (h ▸ h1))))
        | ok u => simp at h
    · rw [if_neg hr] at h
      simp at h

theorem load_model_ok_state (env : Env) (st : EngineState) (model_id : String)
    (h : (load_model env st model_id).1 = Except.ok ()) :
    (load_model env st model_id).2.loaded_models.contains model_id = true ∧
    (load_model env st model_id).2.loading_models.contains model_id = false ∧
    mapLookup (load_model env st model_id).2.model_errors model_id = none := by
  unfold load_model at h ⊢
  cases hb : load_model_body env (load_entry st model_id) model_id with
  | mk r st2 =>
    rw [hb] at h
    cases r with
    | error e0 => simp at h
    | ok u =>
      have hbody := load_body_ok_state env (load_entry st model_id) model_id
        (by rw [hb])
      rw [hb] at hbody
      refine ⟨hbody.1, setErase_contains_self _ _, ?_⟩
      have herr : st2.model_errors = mapErase st.model_errors model_id := hbody.2.2
      show mapLookup st2.model_errors model_id = none
      rw [herr]
      exact mapErase_lookup_self _ _

theorem load_model_error_state (env : Env) (st : EngineState) (model_id : String)
    (e : EngineError)
    (h : (load_model env st model_id).1 = Except.error e) :
    (load_model env st model_id).2.loaded_models = st.loaded_models ∧
    (load_model env st model_id).2.loading_models.contains model_id = false ∧
    mapLookup (load_model env st model_id).2.model_errors model_id =
      some (EngineError.toMessage e) := by
  unfold load_model at h ⊢
  cases hb : load_model_body env (load_entry st model_id) model_id with
  | mk r st2 =>
    rw [hb] at h
    cases r with
    | ok u => simp at h
    | error e0 =>
      simp at h
      subst h
      have hst : st2 = load_entry st model_id := by
        have := load_body_error_state env (load_entry st model_id) model_id e0
          (by rw [hb])
        rw [hb] at this
        exact this
      refine ⟨?_, setErase_contains_self _ _, ?_⟩
      · show st2.loaded_models = st.loaded_models
        rw [hst]
        rfl
      · exact mapInsert_lookup_self _ _ _

theorem load_model_error_cases (env : Env) (st : EngineState) (model_id : String)
    (e : EngineError)
    (h : (load_model env st model_id).1 = Except.error e) :
    e = EngineError.catalogNotInitialized ∨ e = EngineError.unknownModelId ∨
    e = EngineError.artifactMissing ∨
    (∃ m, e = EngineError.portError m ∧ env.free_port = Except.error m) ∨
    (∃ m args, e = EngineError.spawnError m ∧ env.spawn args = Except.error m) := by
  unfold load_model at h
  cases hb : load_model_body env (load_entry st model_id) model_id with
  | mk r st2 =>
    rw [hb] at h
    cases r with
    | ok u => simp at h
    | error e0 =>
      simp at h
      subst h
      exact load_body_error_cases env (load_entry st model_id) model_id e0 (by rw [hb])

theorem load_model_error_msg_ne (env : Env) (st : EngineState) (model_id : String)
    (e : EngineError) (hWF : Env.WF env)
    (h : (load_model env st model_id).1 = Except.error e) :
    EngineError.toMessage e ≠ "" := by
  rcases load_model_error_cases env st model_id e h with
    h1 | h1 | h1 | ⟨m, he, hm⟩ | ⟨m, args, he, hm⟩
  · subst h1
    intro hc
    simp [EngineError.toMessage] at hc
  · subst h1
    intro hc
    simp [EngineError.toMessage] at hc
  · subst h1
    intro hc
    simp [EngineError.toMessage] at hc
  · subst he
    exact hWF.1 m hm
  · subst he
    exact hWF.2 args m hm

theorem assert_local_error_eq (st : EngineState) (url : String) (e : EngineError)
    (h : assert_local_url st url = Except.error e) :
    e = EngineError.remoteDisabled := by
  unfold assert_local_url at h
  split at h
  · simp at h
  · split at h
    · simp at h
    · simp at h
      exact h.symm

theorem ollama_not_notLoaded (env : Env) (st : EngineState) (model : ModelSpec)
    (message : String) :
    ollama_completion env st model message ≠ Except.error EngineError.notLoaded := by
  intro h
  unfold ollama_completion at h
  dsimp only at h
  cases ha : assert_local_url st (model.base_url.getD "http://127.0.0.1:11434") with
  | error e =>
    rw [ha] at h
    dsimp only at h
    simp at h
    have := assert_local_error_eq st (model.base_url.getD "http://127.0.0.1:11434") e ha
    rw [h] at this
    simp at this
  | ok u =>
    rw [ha] at h
    dsimp only at h
    cases hp : env.post ((model.base_url.getD "http://127.0.0.1:11434") ++ "/api/generate") with
    | error m =>
      rw [hp] at h
      simp at h
    | ok r =>
      rw [hp] at h
      simp at h

theorem llama_not_notLoaded (env : Env) (st : EngineState) (model_id message : String) :
    llama_completion env st model_id message ≠ Except.error EngineError.notLoaded := by
  intro h
  unfold llama_completion at h
  cases hl : mapLookup st.llama_servers model_id with
  | none =>
    rw [hl] at h
    simp at h
  | some server =>
    rw [hl] at h
    dsimp only at h
    cases hp : env.post (server.base_url ++ "/completion") with
    | error m =>
      rw [hp] at h
      simp at h
    | ok r =>
      rw [hp] at h
      dsimp only at h
      cases hc : r.content with
      | some c =>
        rw [hc] at h
        simp at h
      | none =>
        rw [hc] at h
        dsimp only at h
        cases hch : r.choices with
        | nil =>
          rw [hch] at h
          simp at h
        | cons ch rest =>
          rw [hch] at h
          simp at h

theorem ensure_not_notLoaded (env : Env) (st : EngineState) (model_id : String)
    (model : ModelSpec) :
    (ensure_llama_server env st model_id model).1 ≠
      Except.error EngineError.notLoaded := by
  intro h
  rcases ensure_error_cases env st model_id model _ h with h1 | ⟨m, h1, _⟩ | ⟨m, args, h1, _⟩ <;>
    simp at h1

/-- Claim C1: whenever load_model succeeds for an id, the status of that
id reads "loaded"; after unload_model on that just-loaded id the status
reads "available" and the instance map holds no record for the id. -/
theorem load_success_unload_lifecycle (env : Env) (st : EngineState) (model_id : String)
    (h : (load_model env st model_id).1 = Except.ok ()) :
    get_model_status (load_model env st model_id).2 model_id = "loaded" ∧
    get_model_status (unload_model (load_model env st model_id).2 model_id) model_id
      = "available" ∧
    mapLookup (unload_model (load_model env st model_id).2 model_id).llama_servers
      model_id = none := by
  obtain ⟨h1, h2, h3⟩ := load_model_ok_state env st model_id h
  have h1m : model_id ∈ (load_model env st model_id).2.loaded_models := by
    simpa using h1
  have h2m : model_id ∉ (load_model env st model_id).2.loading_models := by
    simpa using h2
  have h4m : model_id ∉ setErase (load_model env st model_id).2.loaded_models
      model_id := by
    simpa using setErase_contains_self (load_model env st model_id).2.loaded_models
      model_id
  refine ⟨?_, ?_, ?_⟩
  · simp [get_model_status, h1m, h2m]
  · simp [get_model_status, unload_model, h2m, h4m, h3]
  · simp [unload_model, mapErase_lookup_self]

/-- Witness instantiating the load/unload lifecycle claim on a fresh
engine with one managed model and a benign environment. -/
theorem load_success_unload_lifecycle_witness :
    (load_model sampleEnv sampleState "m1").1 = Except.ok () ∧
    (get_model_status (load_model sampleEnv sampleState "m1").2 "m1" = "loaded" ∧
     get_model_status
       (unload_model (load_model sampleEnv sampleState "m1").2 "m1") "m1"
       = "available" ∧
     mapLookup
       (unload_model (load_model sampleEnv sampleState "m1").2 "m1").llama_servers
       "m1" = none) :=
  ⟨rfl, load_success_unload_lifecycle sampleEnv sampleState "m1" rfl⟩

/-- Counterexample to claim C2 as stated: with m1 believed loaded from a
stale state file and its catalog entry missing the artifact, load_model
fails yet the status afterwards reads "loaded", not "error", because
get_model_status consults the loaded set before the error map and a
failed load never removes an id from the loaded set. -/
theorem load_failure_status_counterexample :
    (load_model sampleEnv staleState "m1").1 =
      Except.error EngineError.artifactMissing ∧
    get_model_status (load_model sampleEnv staleState "m1").2 "m1" = "loaded" ∧
    get_model_error (load_model sampleEnv staleState "m1").2 "m1" =
      some "Model artifact is not configured." := by
  refine ⟨rfl, rfl, rfl⟩

/-- Claim C2 (amended): provided the id is not currently in the loaded
set, a failing load_model leaves its status "error" with the non-empty
failure message retrievable; a subsequent successful load clears the
message; and on every exit path the loading marker is removed. -/
theorem load_failure_error_state (env : Env) (st : EngineState) (model_id : String)
    (hWF : Env.WF env)
    (hnl : st.loaded_models.contains model_id = false) :
    (∀ e, (load_model env st model_id).1 = Except.error e →
        get_model_status (load_model env st model_id).2 model_id = "error" ∧
        get_model_error (load_model env st model_id).2 model_id =
          some (EngineError.toMessage e) ∧
        EngineError.toMessage e ≠ "") ∧
    (∀ st2, (load_model env st2 model_id).1 = Except.ok () →
        get_model_error (load_model env st2 model_id).2 model_id = none) ∧
    (load_model env st model_id).2.loading_models.contains model_id = false := by
  refine ⟨?_, ?_, ?_⟩
  · intro e he
    obtain ⟨hl, hld, herr⟩ := load_model_error_state env st model_id e he
    refine ⟨?_, herr, load_model_error_msg_ne env st model_id e hWF he⟩
    have hldm : model_id ∉ (load_model env st model_id).2.loading_models := by
      simpa using hld
    have hnlm : model_id ∉ st.loaded_models := by simpa using hnl
    simp [get_model_status, hldm, hl, hnlm, herr]
  · intro st2 h2
    exact (load_model_ok_state env st2 model_id h2).2.2
  · cases hres : (load_model env st model_id).1 with
    | ok u =>
      cases u
      exact (load_model_ok_state env st model_id hres).2.1
    | error e =>
      exact (load_model_error_state env st model_id e hres).2.1

/-- Witness instantiating the amended load-failure claim on a fresh
engine whose managed model lacks an artifact path. -/
theorem load_failure_error_state_witness :
    Env.WF sampleEnv ∧
    freshBrokenState.loaded_models.contains "m1" = false ∧
    (load_model sampleEnv freshBrokenState "m1").1 =
      Except.error EngineError.artifactMissing ∧
    get_model_status (load_model sampleEnv freshBrokenState "m1").2 "m1" = "error" ∧
    get_model_error (load_model sampleEnv freshBrokenState "m1").2 "m1" =
      some "Model artifact is not configured." ∧
    (load_model sampleEnv freshBrokenState "m1").2.loading_models.contains "m1"
      = false := by
  have hWF : Env.WF sampleEnv :=
    ⟨fun e h => by simp [sampleEnv] at h, fun args e h => by simp [sampleEnv] at h⟩
  have hmain := load_failure_error_state sampleEnv freshBrokenState "m1" hWF rfl
  have h1 := hmain.1 EngineError.artifactMissing rfl
  exact ⟨hWF, rfl, rfl, h1.1, h1.2.1, hmain.2.2⟩

/-- Claim C6: a failing ensure_llama_server leaves the engine state, and
in particular the instance map, exactly as it was, and no RuntimeInstance
is registered for the id afterwards. -/
theorem ensure_failure_atomic (env : Env) (st : EngineState) (model_id : String)
    (model : ModelSpec) (e : EngineError)
    (h : (ensure_llama_server env st model_id model).1 = Except.error e) :
    (ensure_llama_server env st model_id model).2 = st ∧
    mapLookup (ensure_llama_server env st model_id model).2.llama_servers model_id
      = none := by
  have hh := ensure_error_state env st model_id model e h
  refine ⟨hh.1, ?_⟩
  rw [hh.1]
  exact hh.2

/-- Witness instantiating the ensure atomicity claim in an environment
whose port allocation fails. -/
theorem ensure_failure_atomic_witness :
    (ensure_llama_server failEnv sampleState "m1" sampleLlamaSpec).1 =
      Except.error (EngineError.portError "bind failed") ∧
    (ensure_llama_server failEnv sampleState "m1" sampleLlamaSpec).2 = sampleState ∧
    mapLookup
      (ensure_llama_server failEnv sampleState "m1" sampleLlamaSpec).2.llama_servers
      "m1" = none :=
  ⟨rfl, ensure_failure_atomic failEnv sampleState "m1" sampleLlamaSpec
    (EngineError.portError "bind failed") rfl⟩

/-- Claim C9: reply, returning or raising, never changes the loaded set,
the loading set, the error map, the catalog, or the policy flag; only
the instance map can change, and then only by registering an instance
under the requested id. -/
theorem reply_frame (env : Env) (st : EngineState) (model_id message : String) :
    (reply env st model_id message).2.loaded_models = st.loaded_models ∧
    (reply env st model_id message).2.loading_models = st.loading_models ∧
    (reply env st model_id message).2.model_errors = st.model_errors ∧
    (reply env st model_id message).2.model_catalog = st.model_catalog ∧
    (reply env st model_id message).2.allow_remote = st.allow_remote ∧
    ((reply env st model_id message).2.llama_servers = st.llama_servers ∨
     ∃ inst, (reply env st model_id message).2.llama_servers =
       mapInsert st.llama_servers model_id inst) := by
  unfold reply
  split
  · exact ⟨rfl, rfl, rfl, rfl, rfl, Or.inl rfl⟩
  · cases hm : get_model st model_id with
    | error e0 => exact ⟨rfl, rfl, rfl, rfl, rfl, Or.inl rfl⟩
    | ok model =>
      dsimp only
      by_cases hr : model.runtime.getD "ollama" = "llamacpp"
      · rw [if_pos hr]
        cases hens : ensure_llama_server env st model_id model with
        | mk r st2 =>
          have hf := ensure_frame_fields env st model_id model
          have hs := ensure_servers_shape env st model_id model
          rw [hens] at hf hs
          cases r with
          | error e2 =>
            exact ⟨hf.1, hf.2.1, hf.2.2.1, hf.2.2.2.1, hf.2.2.2.2.2, hs⟩
          | ok u =>
            exact ⟨hf.1, hf.2.1, hf.2.2.1, hf.2.2.2.1, hf.2.2.2.2.2, hs⟩
      · rw [if_neg hr]
        by_cases hr2 : model.runtime.getD "ollama" = "ollama"
        · rw [if_pos hr2]
          exact ⟨rfl, rfl, rfl, rfl, rfl, Or.inl rfl⟩
        · rw [if_neg hr2]
          exact ⟨rfl, rfl, rfl, rfl, rfl, Or.inl rfl⟩

/-- Witness instantiating the reply frame property on a loaded daemon
model. -/
theorem reply_frame_witness :
    (reply sampleEnv loadedOllamaState "m1" "hello").2.loaded_models =
      loadedOllamaState.loaded_models ∧
    (reply sampleEnv loadedOllamaState "m1" "hello").2.loading_models =
      loadedOllamaState.loading_models ∧
    (reply sampleEnv loadedOllamaState "m1" "hello").2.model_errors =
      loadedOllamaState.model_errors ∧
    (reply sampleEnv loadedOllamaState "m1" "hello").2.model_catalog =
      loadedOllamaState.model_catalog ∧
    (reply sampleEnv loadedOllamaState "m1" "hello").2.allow_remote =
      loadedOllamaState.allow_remote ∧
    ((reply sampleEnv loadedOllamaState "m1" "hello").2.llama_servers =
      loadedOllamaState.llama_servers ∨
     ∃ inst, (reply sampleEnv loadedOllamaState "m1" "hello").2.llama_servers =
       mapInsert loadedOllamaState.llama_servers "m1" inst) :=
  reply_frame sampleEnv loadedOllamaState "m1" "hello"

/-- Claim C10: unload_model never touches the error map, so an id whose
status reads "error" still reads "error", not "available", after
unload_model. -/
theorem unload_keeps_error_record (st : EngineState) (model_id : String) :
    (unload_model st model_id).model_errors = st.model_errors ∧
    (get_model_status st model_id = "error" →
      get_model_status (unload_model st model_id) model_id = "error") := by
  refine ⟨rfl, ?_⟩
  intro h
  unfold get_model_status at h ⊢
  by_cases h1 : st.loading_models.contains model_id = true
  · rw [if_pos h1] at h
    simp at h
  · rw [if_neg h1] at h
    by_cases h2 : st.loaded_models.contains model_id = true
    · rw [if_pos h2] at h
      simp at h
    · rw [if_neg h2] at h
      by_cases h3 : (mapLookup st.model_errors model_id).isSome = true
      · simp only [unload_model]
        rw [if_neg h1, if_neg ?_, if_pos h3]
        simpa using setErase_contains_self st.loaded_models model_id
      · rw [if_neg h3] at h
        simp at h

theorem listStartsWith_append (p r : List Char) : listStartsWith p (p ++ r) = true := by
  induction p with
  | nil => rfl
  | cons c cs ih => simp [listStartsWith, ih]

theorem listStartsWith_iff_take (p l : List Char) :
    listStartsWith p l = true ↔ l.take p.length = p := by
  induction p generalizing l with
  | nil => simp [listStartsWith]
  | cons c cs ih =>
    cases l with
    | nil => simp [listStartsWith]
    | cons d ds =>
      constructor
      · intro h
        rw [listStartsWith, Bool.and_eq_true] at h
        have h1 : c = d := eq_of_beq h.1
        rw [List.length_cons, List.take_succ_cons, (ih ds).mp h.2, h1]
      · intro h
        rw [List.length_cons, List.take_succ_cons] at h
        injection h with h1 h2
        rw [listStartsWith, Bool.and_eq_true]
        exact ⟨beq_iff_eq.mpr h1.symm, (ih ds).mpr h2⟩

theorem splitAtClose_cons_eq (fuel_c : Char) (cs : List Char) :
    splitAtClose (fuel_c :: cs) =
      if listStartsWith closeTag (fuel_c :: cs) then some ((fuel_c :: cs).drop 8)
      else splitAtClose cs := rfl

theorem splitAtClose_length_le (l r : List Char) (h : splitAtClose l = some r) :
    r.length ≤ l.length := by
  induction l with
  | nil => simp [splitAtClose] at h
  | cons c cs ih =>
    rw [splitAtClose_cons_eq] at h
    split at h
    · simp at h
      rw [← h]
      simpa using Nat.sub_le (c :: cs).length 8
    · exact le_trans (ih h) (by simp)

theorem closeTag_no_border : ∀ k, k < 8 → 0 < k →
    closeTag.drop k ≠ closeTag.take (8 - k) := by decide

theorem no_cross_close (a b : List Char) (ha : a ≠ [])
    (h : listHasOcc closeTag a = false) :
    listStartsWith closeTag (a ++ (closeTag ++ b)) = false := by
  by_contra hc
  rw [Bool.not_eq_false, listStartsWith_iff_take] at hc
  have hCT : closeTag.length = 8 := rfl
  rw [hCT] at hc
  rcases Nat.lt_or_ge a.length 8 with hlen | hlen
  · rw [List.take_append_eq_append_take] at hc
    have ha8 : a.take 8 = a := List.take_of_length_le (Nat.le_of_lt hlen)
    have hm : (closeTag ++ b).take (8 - a.length) = closeTag.take (8 - a.length) :=
      List.take_append_of_le_length (by rw [hCT]; exact Nat.sub_le 8 a.length)
    rw [ha8, hm] at hc
    have h1 := congrArg (List.drop a.length) hc
    rw [List.drop_left] at h1
    have hpos : 0 < a.length := List.length_pos.mpr ha
    exact closeTag_no_border a.length hlen hpos h1.symm
  · rw [List.take_append_of_le_length hlen] at hc
    have hsw : listStartsWith closeTag a = true :=
      (listStartsWith_iff_take closeTag a).mpr hc
    cases a with
    | nil => exact ha rfl
    | cons x xs =>
      rw [listHasOcc, Bool.or_eq_false_iff] at h
      rw [hsw] at h
      simp at h

theorem splitAtClose_append (a b : List Char)
    (h : listHasOcc closeTag a = false) :
    splitAtClose (a ++ (closeTag ++ b)) = some b := by
  induction a with
  | nil =>
    have hcons : closeTag ++ b = '<' :: ("/think>".data ++ b) := rfl
    show splitAtClose (closeTag ++ b) = some b
    rw [hcons, splitAtClose_cons_eq,
        if_pos (show listStartsWith closeTag ('<' :: ("/think>".data ++ b)) = true
          from listStartsWith_append closeTag b)]
    show some ((closeTag ++ b).drop closeTag.length) = some b
    rw [List.drop_left]
  | cons c cs ih =>
    rw [listHasOcc, Bool.or_eq_false_iff] at h
    rw [List.cons_append, splitAtClose_cons_eq]
    rw [if_neg (by
      rw [show (c :: (cs ++ (closeTag ++ b))) = (c :: cs) ++ (closeTag ++ b)
        from rfl]
      rw [no_cross_close (c :: cs) b (by simp)
        (by rw [listHasOcc, Bool.or_eq_false_iff]; exact h)]
      simp)]
    exact ih h.2

theorem stripAux_cons_eq (fuel : Nat) (c : Char) (cs : List Char) :
    stripAux (fuel + 1) (c :: cs) =
      if listStartsWith openTag (c :: cs) then
        (match splitAtClose ((c :: cs).drop 7) with
         | some rest => stripAux fuel rest
         | none => c :: cs)
      else c :: stripAux fuel cs := rfl

theorem stripAux_no_open : ∀ (fuel : Nat) (l : List Char), l.length ≤ fuel →
    listHasOcc openTag l = false → stripAux fuel l = l := by
  intro fuel
  induction fuel with
  | zero =>
    intro l hl _
    cases l with
    | nil => rfl
    | cons c cs => simp at hl
  | succ f ih =>
    intro l hl hocc
    cases l with
    | nil => rfl
    | cons c cs =>
      rw [listHasOcc, Bool.or_eq_false_iff] at hocc
      rw [stripAux_cons_eq, if_neg (by rw [hocc.1]; simp)]
      rw [ih cs (Nat.le_of_succ_le_succ (by simpa using hl)) hocc.2]

theorem stripAux_fuel_irrel : ∀ (f1 f2 : Nat) (l : List Char), l.length ≤ f1 →
    l.length ≤ f2 → stripAux f1 l = stripAux f2 l := by
  intro f1
  induction f1 with
  | zero =>
    intro f2 l h1 h2
    cases l with
    | nil => cases f2 <;> rfl
    | cons c cs => simp at h1
  | succ f ih =>
    intro f2 l h1 h2
    cases l with
    | nil => cases f2 <;> rfl
    | cons c cs =>
      cases f2 with
      | zero => simp at h2
      | succ f2p =>
        rw [stripAux_cons_eq, stripAux_cons_eq]
        by_cases hs : listStartsWith openTag (c :: cs) = true
        · rw [if_pos hs, if_pos hs]
          cases hsp : splitAtClose ((c :: cs).drop 7) with
          | none => rfl
          | some rest =>
            have hle := splitAtClose_length_le _ rest hsp
            have hdl : ((c :: cs).drop 7).length ≤ cs.length := by
              rw [show (c :: cs).drop 7 = cs.drop 6 from rfl]
              simp
            have hr : rest.length ≤ cs.length := le_trans hle hdl
            exact ih f2p rest (le_trans hr (Nat.le_of_succ_le_succ (by simpa using h1)))
              (le_trans hr (Nat.le_of_succ_le_succ (by simpa using h2)))
        · rw [if_neg hs, if_neg hs]
          rw [ih f2p cs (Nat.le_of_succ_le_succ (by simpa using h1))
            (Nat.le_of_succ_le_succ (by simpa using h2))]

theorem stripAux_span (a b : List Char) (h : listHasOcc closeTag a = false)
    (fuel : Nat) (hfuel : (openTag ++ (a ++ (closeTag ++ b))).length ≤ fuel) :
    stripAux fuel (openTag ++ (a ++ (closeTag ++ b))) = stripAux b.length b := by
  have h7 : openTag.length = 7 := rfl
  have h8 : closeTag.length = 8 := rfl
  have hlen : (openTag ++ (a ++ (closeTag ++ b))).length =
      7 + (a.length + (8 + b.length)) := by
    simp [List.length_append, h7, h8]
  cases fuel with
  | zero =>
    rw [hlen] at hfuel
    omega
  | succ f =>
    have hcons : openTag ++ (a ++ (closeTag ++ b)) =
        '<' :: ("think>".data ++ (a ++ (closeTag ++ b))) := rfl
    rw [hcons, stripAux_cons_eq]
    rw [if_pos (show listStartsWith openTag
        ('<' :: ("think>".data ++ (a ++ (closeTag ++ b)))) = true
      from listStartsWith_append openTag (a ++ (closeTag ++ b)))]
    rw [show ('<' :: ("think>".data ++ (a ++ (closeTag ++ b)))).drop 7 =
        a ++ (closeTag ++ b) from rfl]
    rw [splitAtClose_append a b h]
    apply stripAux_fuel_irrel
    · rw [hlen] at hfuel
      omega
    · exact le_refl b.length

theorem resolve_spec_path_eq (renv : ResolveEnv) (fs : FS) (root : String)
    (model : ModelSpec)
    (hov : renv.llama_cpp_server_path.getD "" = "")
    (p : String) (hp : model.server_path = some p) (hne : p ≠ "") :
    resolve_llama_server renv fs root model =
      (if path_is_absolute p then p else joinPath root p) := by
  unfold resolve_llama_server
  have hA : (renv.llama_cpp_server_path.getD "" != "") = false := by
    rw [hov]
    simp
  rw [if_neg (by rw [hA]; simp)]
  rw [hp]
  have hB : (((some p : Option String).getD "") != "") = true := by
    simpa using hne
  rw [if_pos hB]
  simp

/-- Claim C5: the environment override path wins over a conflicting
spec-declared server path; with no override the spec-declared path wins,
resolved against the root when relative, and the result is independent
of the filesystem, so the platform glob search is never consulted. -/
theorem resolver_precedence (renv : ResolveEnv) (fs : FS) (root : String)
    (model : ModelSpec) :
    (∀ o, renv.llama_cpp_server_path = some o → o ≠ "" →
        resolve_llama_server renv fs root model = o) ∧
    (renv.llama_cpp_server_path.getD "" = "" →
      ∀ p, model.server_path = some p → p ≠ "" →
        resolve_llama_server renv fs root model =
          (if path_is_absolute p then p else joinPath root p) ∧
        (∀ fs2 : FS, resolve_llama_server renv fs2 root model =
          resolve_llama_server renv fs root model)) := by
  constructor
  · intro o ho hne
    unfold resolve_llama_server
    rw [ho]
    have hB : (((some o : Option String).getD "") != "") = true := by
      simpa using hne
    rw [if_pos hB]
    rfl
  · intro hov p hp hne
    refine ⟨resolve_spec_path_eq renv fs root model hov p hp hne, ?_⟩
    intro fs2
    rw [resolve_spec_path_eq renv fs2 root model hov p hp hne,
        resolve_spec_path_eq renv fs root model hov p hp hne]

/-- Witness instantiating the resolver precedence claim: an override
beats a conflicting spec path, and without the override the relative
spec path resolves against the root on any filesystem. -/
theorem resolver_precedence_witness :
    resolve_llama_server ({ llama_cpp_server_path := some "/opt/llama-server" })
      sampleFS "/repo" ({ server_path := some "bin/server" }) = "/opt/llama-server" ∧
    resolve_llama_server ({}) sampleFS "/repo" ({ server_path := some "bin/server" })
      = "/repo/bin/server" := by
  constructor
  · exact (resolver_precedence ({ llama_cpp_server_path := some "/opt/llama-server" })
      sampleFS "/repo" ({ server_path := some "bin/server" })).1 "/opt/llama-server"
      rfl (by decide)
  · have h := ((resolver_precedence ({}) sampleFS "/repo"
      ({ server_path := some "bin/server" })).2 rfl "bin/server" rfl (by decide)).1
    simpa using h

/-- Claim C7: with the remote-allow flag unset, assert_local_url fails
with the policy error for every URL whose hostname is neither loopback
name; with the flag set it succeeds for every URL. -/
theorem assert_local_policy (st : EngineState) (url : String) :
    (st.allow_remote = false →
      urlHostname url ≠ some "127.0.0.1" →
      urlHostname url ≠ some "localhost" →
      assert_local_url st url = Except.error EngineError.remoteDisabled) ∧
    (st.allow_remote = true → assert_local_url st url = Except.ok ()) := by
  constructor
  · intro hflag h1 h2
    unfold assert_local_url
    rw [if_neg (by rw [hflag]; simp)]
    rw [if_neg (by simp [h1, h2])]
  · intro hflag
    unfold assert_local_url
    rw [if_pos hflag]

/-- Witness instantiating the local-only policy claim on the concrete
public address from the specification. -/
theorem assert_local_policy_witness :
    ({} : EngineState).allow_remote = false ∧
    urlHostname "http://93.184.216.34/api/generate" ≠ some "127.0.0.1" ∧
    urlHostname "http://93.184.216.34/api/generate" ≠ some "localhost" ∧
    assert_local_url ({} : EngineState) "http://93.184.216.34/api/generate" =
      Except.error EngineError.remoteDisabled ∧
    assert_local_url ({ allow_remote := true } : EngineState)
      "http://93.184.216.34/api/generate" = Except.ok () :=
  ⟨rfl, by decide, by decide,
   (assert_local_policy ({} : EngineState) "http://93.184.216.34/api/generate").1
     rfl (by decide) (by decide),
   (assert_local_policy ({ allow_remote := true } : EngineState)
     "http://93.184.216.34/api/generate").2 rfl⟩

/-- Claim C3: reply raises the rejected-request error exactly when the
loaded set is non-empty and the id is not a member; in particular with
an empty loaded set reply never raises that error, whatever the id's
lifecycle state. -/
theorem reply_rejects_iff (env : Env) (st : EngineState) (model_id message : String) :
    (reply env st model_id message).1 = Except.error EngineError.notLoaded ↔
    (st.loaded_models ≠ [] ∧ st.loaded_models.contains model_id = false) := by
  constructor
  · intro h
    unfold reply at h
    split at h
    · next hc =>
      rw [Bool.and_eq_true] at hc
      constructor
      · intro hemp
        rw [hemp] at hc
        simp at hc
      · have hc1 := hc.1
        rw [Bool.not_eq_true'] at hc1
        exact hc1
    · exfalso
      cases hm : get_model st model_id with
      | error e0 =>
        rw [hm] at h
        simp at h
        rcases get_model_error_cases st model_id e0 hm with h1 | h1 <;>
          rw [h1] at h <;> simp at h
      | ok model =>
        rw [hm] at h
        dsimp only at h
        by_cases hr : model.runtime.getD "ollama" = "llamacpp"
        · rw [if_pos hr] at h
          cases hens : ensure_llama_server env st model_id model with
          | mk r st2 =>
            rw [hens] at h
            cases r with
            | error e2 =>
              dsimp only at h
              simp at h
              exact ensure_not_notLoaded env st model_id model
                (by rw [hens, h])
            | ok u =>
              dsimp only at h
              exact llama_not_notLoaded env st2 model_id message h
        · rw [if_neg hr] at h
          by_cases hr2 : model.runtime.getD "ollama" = "ollama"
          · rw [if_pos hr2] at h
            dsimp only at h
            exact ollama_not_notLoaded env st model message h
          · rw [if_neg hr2] at h
            simp at h
  · rintro ⟨hne, hnc⟩
    unfold reply
    have hcond : (!st.loaded_models.contains model_id &&
        !st.loaded_models.isEmpty) = true := by
      rw [Bool.and_eq_true]
      constructor
      · rw [Bool.not_eq_true']
        exact hnc
      · rw [Bool.not_eq_true']
        cases hl : st.loaded_models with
        | nil => exact absurd hl hne
        | cons a l => rfl
    rw [if_pos hcond]

/-- Witness instantiating the rejection characterization on a loaded
engine asked about another id. -/
theorem reply_rejects_iff_witness :
    ((reply sampleEnv loadedOllamaState "other" "hi").1 =
        Except.error EngineError.notLoaded ↔
      (loadedOllamaState.loaded_models ≠ [] ∧
        loadedOllamaState.loaded_models.contains "other" = false)) :=
  reply_rejects_iff sampleEnv loadedOllamaState "other" "hi"

/-- Counterexample to claim C4 as stated: with m1 loaded, reply on an id
absent from the catalog raises the rejected-request state error, not the
unknown-model-id configuration error, because the loaded-set guard runs
before catalog resolution. -/
theorem reply_unknown_id_counterexample :
    mapLookup loadedOllamaState.model_catalog "unknown-id" = none ∧
    loadedOllamaState.loaded_models ≠ [] ∧
    (reply sampleEnv loadedOllamaState "unknown-id" "hello").1 =
      Except.error EngineError.notLoaded ∧
    EngineError.notLoaded ≠ EngineError.unknownModelId ∧
    EngineError.notLoaded ≠ EngineError.catalogNotInitialized := by
  refine ⟨rfl, by decide, rfl, by decide, by decide⟩

/-- Claim C4 (amended): reply on an id absent from a non-empty catalog
fails with the unknown-model-id configuration error whenever the
loaded-set guard passes, that is when the loaded set is empty or already
contains the id; when the loaded set is non-empty and lacks the id, the
rejected-request state error fires first instead. -/
theorem reply_unknown_id_config_error (env : Env) (st : EngineState)
    (model_id message : String)
    (hcat : mapLookup st.model_catalog model_id = none)
    (hne : st.model_catalog ≠ [])
    (hpass : st.loaded_models = [] ∨ st.loaded_models.contains model_id = true) :
    (reply env st model_id message).1 = Except.error EngineError.unknownModelId := by
  unfold reply
  have hcond : (!st.loaded_models.contains model_id &&
      !st.loaded_models.isEmpty) = false := by
    rcases hpass with hp | hp
    · rw [hp]
      simp
    · rw [hp]
      simp
  rw [if_neg (by rw [hcond]; simp)]
  have hg : get_model st model_id = Except.error EngineError.unknownModelId := by
    unfold get_model
    have hempty : st.model_catalog.isEmpty = false := by
      cases hl : st.model_catalog with
      | nil => exact absurd hl hne
      | cons a l => rfl
    rw [if_neg (by rw [hempty]; simp), hcat]
  rw [hg]

/-- Witness instantiating the amended unknown-id claim on a fresh engine
with an empty loaded set. -/
theorem reply_unknown_id_config_error_witness :
    mapLookup sampleState.model_catalog "unknown-id" = none ∧
    sampleState.model_catalog ≠ [] ∧
    sampleState.loaded_models = [] ∧
    (reply sampleEnv sampleState "unknown-id" "hello").1 =
      Except.error EngineError.unknownModelId :=
  ⟨rfl, by decide, rfl,
   reply_unknown_id_config_error sampleEnv sampleState "unknown-id" "hello" rfl
     (by decide) (Or.inl rfl)⟩

/-- Claim C8: strip_reasoning_tags sanitizes the concrete example to the
final answer; it returns marker-free input unchanged up to whitespace
trimming; and it deletes every paired open..close span, the lazy body
being the text up to the first close marker. -/
theorem strip_reasoning_sanitize :
    strip_reasoning_tags "<think>internal notes</think>Final answer." =
      "Final answer." ∧
    (∀ s : String, listHasOcc openTag s.data = false →
      strip_reasoning_tags s = pyStrip s) ∧
    (∀ a b : String, listHasOcc closeTag a.data = false →
      strip_reasoning_tags ("<think>" ++ a ++ "</think>" ++ b) =
        strip_reasoning_tags b) := by
  refine ⟨by decide, ?_, ?_⟩
  · intro s h
    unfold strip_reasoning_tags
    rw [stripAux_no_open s.data.length s.data (le_refl _) h]
  · intro a b h
    unfold strip_reasoning_tags
    have hdata : ("<think>" ++ a ++ "</think>" ++ b).data =
        openTag ++ (a.data ++ (closeTag ++ b.data)) := by
      show ("<think>" ++ a ++ "</think>" ++ b).data =
        "<think>".data ++ (a.data ++ ("</think>".data ++ b.data))
      simp [List.append_assoc]
    rw [hdata]
    rw [stripAux_span a.data b.data h _ (le_refl _)]

/-- Witness instantiating the sanitizer claim on a marker-free input and
on one explicit reasoning span. -/
theorem strip_reasoning_sanitize_witness :
    listHasOcc openTag " plain text ".data = false ∧
    strip_reasoning_tags " plain text " = pyStrip " plain text " ∧
    listHasOcc closeTag "abc".data = false ∧
    strip_reasoning_tags ("<think>" ++ "abc" ++ "</think>" ++ "Done") =
      strip_reasoning_tags "Done" :=
  ⟨by decide, strip_reasoning_sanitize.2.1 " plain text " (by decide),
   by decide, strip_reasoning_sanitize.2.2 "abc" "Done" (by decide)⟩

/-- Witness instantiating the unload error-record claim on an engine
holding one errored id. -/
theorem unload_keeps_error_record_witness :
    get_model_status erroredState "m1" = "error" ∧
    (unload_model erroredState "m1").model_errors = erroredState.model_errors ∧
    get_model_status (unload_model erroredState "m1") "m1" = "error" :=
  ⟨rfl, (unload_keeps_error_record erroredState "m1").1,
   (unload_keeps_error_record erroredState "m1").2 rfl⟩

end LLMBox
